import Mathlib

/-!
Verification of the youtube-sum pipeline (src/ytsummarize.py).

The script is modelled shallowly: pure string manipulation (URL parsing,
caption-track selection, text joining) is translated function by function;
every call to an external service (caption listing/fetch, yt-dlp download,
speech-to-text, Gemini) is a field of an explicit environment record, so a
run of the program is a pure function of that environment.  Exceptions are
modelled with `Except`; a Python function that can let an exception escape
returns an outcome type with an `uncaught` constructor.

Unicode-specific behaviour of `urllib.parse` (multi-byte percent-escapes,
non-ASCII case folding) is modelled at the ASCII level only; no claim
touches it.
-/

namespace YtSummarize

/-! Character-list helpers, mirroring the Python string operations used by
`urllib.parse` and `re`. -/

/-- part of `l` strictly before the first occurrence of `c` (all of `l` when
`c` does not occur), as in Python `str.partition(c)[0]` / `str.split(c, 1)[0]`. -/
def takeUntilChar (c : Char) (l : List Char) : List Char :=
  l.takeWhile (fun a => a != c)

/-- part of `l` from the first occurrence of `c` on (empty when `c` does not
occur). -/
def dropUntilChar (c : Char) (l : List Char) : List Char :=
  l.dropWhile (fun a => a != c)

/-- part of `l` strictly after the last occurrence of `c` (all of `l` when `c`
does not occur), as in Python `str.rpartition(c)[2]`. -/
def afterLastChar (c : Char) (l : List Char) : List Char :=
  (l.reverse.takeWhile (fun a => a != c)).reverse

/-- split on every occurrence of `c`, as in Python `str.split(c)`
(`"".split(c) == ['']`). -/
def splitOnChar (c : Char) : List Char → List (List Char)
  | [] => [[]]
  | a :: rest =>
    if a == c then [] :: splitOnChar c rest
    else
      match splitOnChar c rest with
      | [] => [[a]]
      | g :: gs => (a :: g) :: gs

/-- Boolean list-prefix test (`startsWithL pre l` iff `pre` is an initial
segment of `l`). -/
def startsWithL : List Char → List Char → Bool
  | [], _ => true
  | _ :: _, [] => false
  | a :: as, b :: bs => a == b && startsWithL as bs

/-- value of a hexadecimal digit, accepting both cases. -/
def hexVal (c : Char) : Option Nat :=
  if '0' ≤ c ∧ c ≤ '9' then some (c.toNat - '0'.toNat)
  else if 'a' ≤ c ∧ c ≤ 'f' then some (c.toNat - 'a'.toNat + 10)
  else if 'A' ≤ c ∧ c ≤ 'F' then some (c.toNat - 'A'.toNat + 10)
  else none

/-- percent-decoding as in `urllib.parse.unquote`, modelled for single-byte
code points: `%XX` with two hex digits becomes the character with code `XX`;
a `%` not followed by two hex digits is kept literally. -/
def percentDecode : List Char → List Char
  | [] => []
  | [c] => if c == '%' then ['%'] else [c]
  | [c, d] => if c == '%' then '%' :: percentDecode [d] else c :: percentDecode [d]
  | c :: d :: e :: rest =>
    if c == '%' then
      match hexVal d, hexVal e with
      | some a, some b => Char.ofNat (16 * a + b) :: percentDecode rest
      | _, _ => '%' :: percentDecode (d :: e :: rest)
    else c :: percentDecode (d :: e :: rest)

/-- `urllib.parse.unquote_plus`: `+` becomes a space, then percent-decoding. -/
def unquote_plus (l : List Char) : List Char :=
  percentDecode (l.map (fun c => if c == '+' then ' ' else c))

/-! the relevant part of `urllib.parse.urlsplit` / `urlparse`. -/

structure UrlSplit where
  scheme : List Char
  netloc : List Char
  path : List Char
  query : List Char
  fragment : List Char
deriving Repr, DecidableEq

/-- characters allowed in a URL scheme after the first (letters, digits,
`+`, `-`, `.`). -/
def isSchemeChar (c : Char) : Bool :=
  c.isAlpha || c.isDigit || c == '+' || c == '-' || c == '.'

/-- input cleaning of `urlsplit`: strip leading C0-control/space
characters, then remove every tab, CR and LF. -/
def cleanUrl (url0 : List Char) : List Char :=
  (url0.dropWhile (fun c => c.toNat ≤ 32)).filter
    (fun c => !(c == '\t' || c == '\r' || c == '\n'))

/-- scheme step of `urlsplit`: when the part before the first colon is a
non-empty valid scheme (first character a letter, the rest scheme
characters), split it off lower-cased; otherwise leave the URL unchanged. -/
def schemeSplit (url : List Char) : List Char × List Char :=
  let pre := takeUntilChar ':' url
  match dropUntilChar ':' url with
  | [] => ([], url)
  | _ :: rest =>
    if pre ≠ [] ∧ (pre.headD ' ').isAlpha ∧ pre.all isSchemeChar then
      (pre.map Char.toLower, rest)
    else ([], url)

/-- netloc step of `urlsplit`: after a leading `//`, the netloc extends to
the first `/`, `?` or `#`. -/
def netlocSplit (url : List Char) : List Char × List Char :=
  if startsWithL ['/', '/'] url then
    let withoutSlashes := url.drop 2
    let n := withoutSlashes.takeWhile (fun c => !(c == '/' || c == '?' || c == '#'))
    (n, withoutSlashes.drop n.length)
  else ([], url)

/-- `urllib.parse.urlsplit`: clean the input, split off a valid scheme at
the first colon, take the netloc after a leading `//`, then split off the
fragment at the first `#` and the query at the first `?`.  This function
computes the split itself; the `ValueError` raises of the real parser —
possible exactly when the netloc contains a square bracket (unbalanced
brackets, or a balanced bracketed host failing `_check_bracketed_host`) —
are modelled by `extract_video_id_run` below, which guards this
computation with those checks on the same netloc. -/
def urlsplit (url0 : List Char) : UrlSplit :=
  let url2 := cleanUrl url0
  let (scheme, url3) := schemeSplit url2
  let (netloc, url4) := netlocSplit url3
  let url5 := takeUntilChar '#' url4
  let fragment :=
    match dropUntilChar '#' url4 with
    | [] => []
    | _ :: t => t
  let path := takeUntilChar '?' url5
  let query :=
    match dropUntilChar '?' url5 with
    | [] => []
    | _ :: t => t
  ⟨scheme, netloc, path, query, fragment⟩

/-- the `hostname` property of a parsed URL: part of the netloc after the
last `@`; inside brackets when a `[` is present, otherwise up to the first
`:`; lower-cased; `none` when empty. -/
def hostnameOf (netloc : List Char) : Option (List Char) :=
  let hostinfo := afterLastChar '@' netloc
  let hostname :=
    if hostinfo.contains '[' then
      takeUntilChar ']'
        (match dropUntilChar '[' hostinfo with
         | [] => []
         | _ :: t => t)
    else
      takeUntilChar ':' hostinfo
  if hostname = [] then none else some (hostname.map Char.toLower)

/-! the relevant part of `urllib.parse.parse_qs` (default arguments:
blank values dropped, separator `&`). -/

/-- decode one `name=value` pair: pairs without `=` and pairs with an empty
value are dropped; name and value are `unquote_plus`-decoded. -/
def qsPair (pair : List Char) : Option (List Char × List Char) :=
  match dropUntilChar '=' pair with
  | [] => none
  | _ :: value =>
    if value = [] then none
    else some (unquote_plus (takeUntilChar '=' pair), unquote_plus value)

/-- `urllib.parse.parse_qsl` with default arguments. -/
def parse_qsl (qs : List Char) : List (List Char × List Char) :=
  (splitOnChar '&' qs).filterMap qsPair

/-- first value recorded for `key`, as in `parse_qs(qs).get(key, [None])[0]`. -/
def parse_qs_first (key : List Char) (qs : List Char) : Option (List Char) :=
  ((parse_qsl qs).find? (fun p => p.fst == key)).map Prod.snd

/-- the regular expression match
`re.match(r"(?:https?://)?(?:www\.)?youtu\.be/([^?&]+)", url)`, returning
the capture group.  The optional literal prefixes make the backtracking
search deterministic, so plain prefix-stripping is an exact model. -/
def youtuBeMatch (url : List Char) : Option (List Char) :=
  let s1 :=
    if startsWithL "https://".data url then url.drop 8
    else if startsWithL "http://".data url then url.drop 7
    else url
  let s2 := if startsWithL "www.".data s1 then s1.drop 4 else s1
  if startsWithL "youtu.be/".data s2 then
    let capture := (s2.drop 9).takeWhile (fun c => !(c == '?' || c == '&'))
    if capture = [] then none else some capture
  else none

/-- `extract_video_id` (src/ytsummarize.py, lines 29-37): when the parsed
hostname is `www.youtube.com` or `youtube.com`, return the first `v` query
value (possibly `None`); otherwise try the `youtu.be` short-link pattern. -/
def extract_video_id (url : String) : Option String :=
  let parsed := urlsplit url.data
  match hostnameOf parsed.netloc with
  | some host =>
    if host = "www.youtube.com".data ∨ host = "youtube.com".data then
      (parse_qs_first "v".data parsed.query).map String.mk
    else (youtuBeMatch url.data).map String.mk
  | none => (youtuBeMatch url.data).map String.mk

/-! the transcript pipeline.  External services are fields of an explicit
environment `Env`; exceptions are `Except` errors.  The exception raised by
the caption service is either its `TranscriptsDisabled` class or anything
else, carried with its `str(e)` rendering; exceptions of the remaining
services never reach an `except TranscriptsDisabled` clause, so only their
`str(e)` rendering is carried. -/

inductive PyExc where
  | transcriptsDisabled
  | other (msg : String)
deriving Repr, DecidableEq

/-- a caption track as iterated by `list_transcripts`: a language code, the
`is_generated` flag, and the outcome of its `fetch()` call (on success, the
list of the `"text"` fields of the caption entries). -/
structure Track where
  language_code : String
  is_generated : Bool
  fetchResult : Except PyExc (List String)
deriving Repr

/-- the selection in `fetch_transcript` (lines 54-57): first track with
`is_generated` false, else first track with `is_generated` true, else none. -/
def best_transcript (transcripts : List Track) : Option Track :=
  (transcripts.find? (fun t => !t.is_generated)).orElse
    (fun _ => transcripts.find? (fun t => t.is_generated))

/-- `str()` of the exception actually raised by line 60's bare
`raise TranscriptsDisabled`: Python instantiates the exception class with
no arguments, and `CouldNotRetrieveTranscript.__init__` — which
`TranscriptsDisabled` inherits — requires the positional `video_id`, so the
raise statement itself fails with this `TypeError` (message format of
CPython 3.10+). -/
def bareRaiseTypeError : String :=
  "CouldNotRetrieveTranscript.__init__() missing 1 required positional argument: 'video_id'"

/-- body of the `try:` block of `fetch_transcript` (lines 47-64), given the
outcome of the `list_transcripts` call: an error is a Python exception
escaping the block.  When no track is selected the code executes the bare
`raise TranscriptsDisabled`; instantiating the class without its required
`video_id` argument raises a `TypeError` — not a `TranscriptsDisabled` —
so the empty-list case escapes as an ordinary exception and is caught by
`except Exception`, not by the captions-disabled handler. -/
def fetch_try_body (listResult : Except PyExc (List Track)) : Except PyExc String :=
  match listResult with
  | .error e => .error e
  | .ok transcripts =>
    match best_transcript transcripts with
    | none => .error (.other bareRaiseTypeError)
    | some best =>
      match best.fetchResult with
      | .error e => .error e
      | .ok entries => .ok (String.intercalate " " entries)

/-- the external world of one run: outcomes of every service call, keyed by
the argument the script passes. -/
structure Env where
  /-- outcome of `YouTubeTranscriptApi.list_transcripts(video_id)`. -/
  list_transcripts : String → Except PyExc (List Track)
  /-- `tempfile.gettempdir()`. -/
  tempDir : String
  /-- message of the exception thrown by `ydl.download([video_url])`, when
  it throws. -/
  ydl_download_exc : String → Option String
  /-- `os.path.exists` after the download. -/
  path_exists : String → Bool
  /-- message of the exception thrown by `open(audio_path, "rb")` on a
  present path, when it throws. -/
  open_exc : String → Option String
  /-- outcome of `openai.Audio.transcriptions.create(...)` followed by the
  `result["text"]` access, keyed by the audio path. -/
  stt_result : String → Except String String
  /-- outcome of `model.generate_content(prompt).text`, keyed by the prompt. -/
  generate_content : String → Except String String

/-- `download_audio` (lines 76-100): the target is always
`os.path.join(tempfile.gettempdir(), "youtube_audio.mp3")`; `None` when the
backend throws (the exception is caught and printed) or when the file does
not exist afterwards; otherwise the fixed path. -/
def download_audio (env : Env) (video_url : String) : Option String :=
  let output_path := env.tempDir ++ "/youtube_audio.mp3"
  match env.ydl_download_exc video_url with
  | some _ => none
  | none => if env.path_exists output_path then some output_path else none

/-- `transcribe_audio` (lines 103-113): `open(None, "rb")` raises a
`TypeError` with this message; any exception escapes the function. -/
def transcribe_audio (env : Env) (audio_path : Option String) : Except String String :=
  match audio_path with
  | none => .error "expected str, bytes or os.PathLike object, not NoneType"
  | some p =>
    match env.open_exc p with
    | some msg => .error msg
    | none => env.stt_result p

/-- result of a call of `fetch_transcript`: a normal
`return transcript_text, error` pair, or an exception escaping the call. -/
inductive FetchOutcome where
  | ret (transcript : Option String) (error : Option String)
  | uncaught (msg : String)
deriving Repr, DecidableEq

/-- `fetch_transcript` (lines 40-73).  `except TranscriptsDisabled` routes
to the audio fallback; the code inside that handler is not protected by the
`try`, so its exceptions escape the function.  `except Exception` turns any
other exception of the `try` block into `(None, f"Error: {str(e)}")`. -/
def fetch_transcript (env : Env) (video_url : String) : FetchOutcome :=
  match extract_video_id video_url with
  | none => .ret none (some "Invalid YouTube URL.")
  | some video_id =>
    if video_id = "" then .ret none (some "Invalid YouTube URL.")
    else
      match fetch_try_body (env.list_transcripts video_id) with
      | .ok text => .ret (some text) none
      | .error .transcriptsDisabled =>
        let audio_path := download_audio env video_url
        match transcribe_audio env audio_path with
        | .ok text => .ret (some text) none
        | .error msg => .uncaught msg
      | .error (.other msg) => .ret none (some ("Error: " ++ msg))

/-- the prompt built by `summarizeyt_with_gemini` (line 24). -/
def gemini_prompt (text : String) (target_language : String) : String :=
  "Summarize this text so the user can understand the content of the video. Note down the important details. Be as natural as possible. The summary should be in "
    ++ target_language ++ ":\n\n" ++ text

/-- `str()` rendering of an optional value interpolated into an f-string
(`None` prints as "None"). -/
def optStr : Option String → String
  | none => "None"
  | some s => s

/-- `summarizeyt_with_gemini` (lines 21-26). -/
def summarizeyt_with_gemini (env : Env) (text : Option String)
    (target_language : String) : Except String String :=
  env.generate_content (gemini_prompt (optStr text) target_language)

/-- Python string truthiness of `transcript_text, error`'s `error` slot. -/
def truthy : Option String → Bool
  | none => false
  | some s => s ≠ ""

/-- result of `main`: the arguments of its `print` calls in order, plus
whether an exception escaped (`fetch_transcript`'s fallback can crash the
program).  The prints inside the helper functions (debug listing, progress
messages) are not recorded. -/
inductive MainOutcome where
  | finished (lines : List String)
  | crashed (lines : List String) (excMsg : String)
deriving Repr, DecidableEq

/-- `main` (lines 116-136), after the two `input()` prompts have produced
`video_url` and `target_language`. -/
def main (env : Env) (video_url target_language : String) : MainOutcome :=
  let l0 := ["Fetching transcript..."]
  match fetch_transcript env video_url with
  | .uncaught msg => .crashed l0 msg
  | .ret transcript_text error =>
    if truthy error then
      .finished (l0 ++ ["Error: " ++ optStr error])
    else
      let l1 := l0 ++ ["Transcript successfully fetched.", "Summarizing with Google Gemini..."]
      match summarizeyt_with_gemini env transcript_text target_language with
      | .ok summary => .finished (l1 ++ ["\n=== Video Summary ===", summary])
      | .error msg => .finished (l1 ++ ["Error during summarization: " ++ msg])

/-- result of a call of `extract_video_id`: the returned optional
identifier, or the message of a `ValueError` raised inside `urlsplit`. -/
inductive ParseOutcome where
  | ok (id : Option String)
  | raises (msg : String)
deriving Repr, DecidableEq

/-- a run of `extract_video_id` including the `ValueError` paths of
`urllib.parse.urlsplit` (CPython 3.11): after the netloc is split off,
unbalanced square brackets raise "Invalid IPv6 URL", and a balanced
bracketed host (the text after the first `[` up to the first `]`) is
validated by `_check_bracketed_host` as an IPv6 / IPvFuture address.  That
address validation is an external library routine abstracted as the opaque
`bracketCheck` parameter (`none` = valid, `some msg` = the ValueError's
message); no raise is possible when the netloc contains no bracket.  On the
non-raising domain the run returns exactly `extract_video_id`. -/
def extract_video_id_run (bracketCheck : List Char → Option String) (url : String) :
    ParseOutcome :=
  let netloc := (urlsplit url.data).netloc
  if (netloc.contains '[' != netloc.contains ']') = true then
    ParseOutcome.raises "Invalid IPv6 URL"
  else if netloc.contains '[' = true then
    let bracketed := takeUntilChar ']'
      (match dropUntilChar '[' netloc with
       | [] => []
       | _ :: t => t)
    match bracketCheck bracketed with
    | some msg => ParseOutcome.raises msg
    | none => ParseOutcome.ok (extract_video_id url)
  else ParseOutcome.ok (extract_video_id url)

/-- a run of `fetch_transcript` including the parser's `ValueError` paths:
`extract_video_id` is called at line 42, before the `try:`, so a
`ValueError` from `urlsplit` escapes `fetch_transcript` uncaught (and
crashes `main`, which has no handler around the fetch); when the parse
does not raise, the run coincides with `fetch_transcript`. -/
def fetch_transcript_run (bracketCheck : List Char → Option String) (env : Env)
    (video_url : String) : FetchOutcome :=
  match extract_video_id_run bracketCheck video_url with
  | ParseOutcome.raises msg => FetchOutcome.uncaught msg
  | ParseOutcome.ok _ => fetch_transcript env video_url

/-! generic lemmas about the character-list helpers. -/

theorem takeWhile_append_all {p : Char → Bool} {l₁ : List Char} (l₂ : List Char)
    (h : ∀ a ∈ l₁, p a = true) :
    (l₁ ++ l₂).takeWhile p = l₁ ++ l₂.takeWhile p := by
  induction l₁ with
  | nil => rfl
  | cons a t ih =>
    have ha : p a = true := h a (by simp)
    simp only [List.cons_append, List.takeWhile_cons, ha, if_true]
    rw [ih (fun b hb => h b (by simp [hb]))]

theorem dropWhile_append_all {p : Char → Bool} {l₁ : List Char} (l₂ : List Char)
    (h : ∀ a ∈ l₁, p a = true) :
    (l₁ ++ l₂).dropWhile p = l₂.dropWhile p := by
  induction l₁ with
  | nil => rfl
  | cons a t ih =>
    have ha : p a = true := h a (by simp)
    simp only [List.cons_append, List.dropWhile_cons, ha, if_true]
    exact ih (fun b hb => h b (by simp [hb]))

theorem takeWhile_all {p : Char → Bool} {l : List Char}
    (h : ∀ a ∈ l, p a = true) : l.takeWhile p = l := by
  have := @takeWhile_append_all p l [] h
  simpa using this

theorem splitOnChar_all_ne {c : Char} {l : List Char}
    (h : ∀ a ∈ l, (a == c) = false) : splitOnChar c l = [l] := by
  induction l with
  | nil => rfl
  | cons a t ih =>
    have ha : (a == c) = false := h a (by simp)
    have iht := ih (fun b hb => h b (by simp [hb]))
    simp [splitOnChar, ha, iht]

theorem splitOnChar_append {c : Char} {l₁ : List Char} (l₂ : List Char)
    (h : ∀ a ∈ l₁, (a == c) = false) :
    splitOnChar c (l₁ ++ c :: l₂) = l₁ :: splitOnChar c l₂ := by
  induction l₁ with
  | nil => simp [splitOnChar]
  | cons a t ih =>
    have ha : (a == c) = false := h a (by simp)
    have iht := ih (fun b hb => h b (by simp [hb]))
    simp only [List.cons_append, splitOnChar, ha, Bool.false_eq_true, if_false]
    rw [show t.append (c :: l₂) = t ++ c :: l₂ from rfl, iht]

theorem percentDecode_all_ne : ∀ {l : List Char},
    (∀ a ∈ l, (a == '%') = false) → percentDecode l = l
  | [], _ => rfl
  | [c], h => by
    have hc := h c (by simp)
    simp [percentDecode, hc]
  | [c, d], h => by
    have hc := h c (by simp)
    have ih := @percentDecode_all_ne [d] (fun b hb => h b (by simp at hb; simp [hb]))
    simp [percentDecode, hc, ih]
    intro h'
    exact h'.symm
  | c :: d :: e :: rest, h => by
    have hc := h c (by simp)
    have ih := @percentDecode_all_ne (d :: e :: rest)
      (fun b hb => h b (by simp at hb ⊢; tauto))
    simp [percentDecode, hc, ih]

theorem unquote_plus_clean {l : List Char}
    (hpct : ∀ a ∈ l, (a == '%') = false)
    (hplus : ∀ a ∈ l, (a == '+') = false) : unquote_plus l = l := by
  unfold unquote_plus
  have hmap : l.map (fun c => if c == '+' then ' ' else c) = l := by
    induction l with
    | nil => rfl
    | cons a t ih =>
      have ha : (a == '+') = false := hplus a (by simp)
      simp only [List.map_cons, ha, Bool.false_eq_true, if_false]
      rw [ih (fun b hb => hpct b (by simp [hb])) (fun b hb => hplus b (by simp [hb]))]
  rw [hmap]
  exact percentDecode_all_ne hpct

theorem afterLastChar_all_ne {c : Char} {l : List Char}
    (h : ∀ a ∈ l, (a == c) = false) : afterLastChar c l = l := by
  unfold afterLastChar
  rw [takeWhile_all (fun b hb => by simpa using h b (List.mem_reverse.mp hb)),
    List.reverse_reverse]

theorem string_append_ne_empty (s t : String) (h : s.data ≠ []) : s ++ t ≠ "" := by
  intro he
  apply h
  have hd : (s ++ t).data = ("" : String).data := by rw [he]
  rw [String.data_append] at hd
  exact (List.append_eq_nil.mp hd).1

theorem truthy_some {s : String} (h : s ≠ "") : truthy (some s) = true := by
  simp [truthy, h]

/-- a concrete environment used by witness theorems: captions are
available, every external call succeeds. -/
def envT : Env :=
  { list_transcripts := fun _ => Except.ok
      [⟨"en", true, Except.ok ["auto", "entry"]⟩,
       ⟨"fr", false, Except.ok ["Hello", "world"]⟩]
    tempDir := "/tmp"
    ydl_download_exc := fun _ => none
    path_exists := fun _ => true
    open_exc := fun _ => none
    stt_result := fun _ => Except.ok "spoken text"
    generate_content := fun _ => Except.ok "a summary" }

/-- C1 counterexample: with an empty track list the try body does not
produce the captions-disabled condition — the bare
`raise TranscriptsDisabled` fails with a TypeError instead — refuting the
claim's empty-list clause. -/
theorem C1_empty_list_counterexample :
    fetch_try_body (Except.ok []) ≠ Except.error PyExc.transcriptsDisabled := by
  intro h
  simp [fetch_try_body, best_transcript] at h

/-- C1 (amended): for every track list returned by the caption-listing
call, the acquirer selects the first manually-created track whenever a
manual track exists, regardless of its position or of auto-generated
tracks around it; with only auto-generated tracks it selects the first
one; an empty list, however, is not treated as captions-disabled: the bare
`raise TranscriptsDisabled` itself fails with a TypeError (the exception
class requires `video_id`), which the try block reports as an ordinary
exception. -/
theorem C1_selection_policy :
    (∀ (early late : List Track) (t : Track),
        (∀ u ∈ early, u.is_generated = true) → t.is_generated = false →
        best_transcript (early ++ t :: late) = some t)
    ∧ (∀ transcripts : List Track,
        (∀ u ∈ transcripts, u.is_generated = true) →
        best_transcript transcripts = transcripts.head?)
    ∧ fetch_try_body (Except.ok []) = Except.error (PyExc.other bareRaiseTypeError) := by
  refine ⟨?_, ?_, rfl⟩
  · intro early late t hb ht
    unfold best_transcript
    have h1 : early.find? (fun u => !u.is_generated) = none :=
      List.find?_eq_none.mpr (fun u hu => by simp [hb u hu])
    rw [List.find?_append, h1]
    simp [List.find?_cons, ht, Option.orElse]
  · intro ts h
    unfold best_transcript
    have h1 : ts.find? (fun u => !u.is_generated) = none :=
      List.find?_eq_none.mpr (fun u hu => by simp [h u hu])
    rw [h1]
    cases ts with
    | nil => rfl
    | cons a t => simp [Option.orElse, List.find?_cons, h a (by simp)]

/-- C1 witness: a manual track behind an auto track is selected; with only
auto tracks the first is selected; the empty list raises the disabled
condition. -/
theorem C1_selection_policy_witness :
    best_transcript
        [⟨"en", true, Except.ok ["auto", "entry"]⟩,
         ⟨"fr", false, Except.ok ["Hello", "world"]⟩]
      = some ⟨"fr", false, Except.ok ["Hello", "world"]⟩
    ∧ best_transcript [⟨"en", true, Except.ok ["a"]⟩, ⟨"de", true, Except.ok ["b"]⟩]
      = some ⟨"en", true, Except.ok ["a"]⟩ := by
  constructor
  · exact C1_selection_policy.1 [⟨"en", true, Except.ok ["auto", "entry"]⟩] []
      ⟨"fr", false, Except.ok ["Hello", "world"]⟩
      (fun u hu => by simp at hu; rw [hu]) rfl
  · have := C1_selection_policy.2.1
      [⟨"en", true, Except.ok ["a"]⟩, ⟨"de", true, Except.ok ["b"]⟩]
      (fun u hu => by simp at hu; rcases hu with h | h <;> rw [h])
    simpa using this

/-- C2 counterexample: an empty track list, in an environment where the
fallback transcription would succeed with "spoken text", still produces
the generic TypeError error return — the fallback is not invoked. -/
theorem C2_empty_list_counterexample :
    fetch_transcript { envT with list_transcripts := fun _ => Except.ok [] }
        "https://youtu.be/xyz789"
      = FetchOutcome.ret none (some ("Error: " ++ bareRaiseTypeError))
    ∧ fetch_transcript { envT with list_transcripts := fun _ => Except.ok [] }
        "https://youtu.be/xyz789"
      ≠ FetchOutcome.ret (some "spoken text") none := by
  have he : fetch_transcript { envT with list_transcripts := fun _ => Except.ok [] }
      "https://youtu.be/xyz789"
      = FetchOutcome.ret none (some ("Error: " ++ bareRaiseTypeError)) := rfl
  refine ⟨he, ?_⟩
  intro h
  rw [he] at h
  injection h with h1 h2
  exact Option.noConfusion h1

/-- C2 (amended): when the listing call reports the disabled-captions
condition, `fetch_transcript` routes to the fallback — speech-to-text
applied to the downloaded audio — and returns the transcribed text with no
error, so captions-disabled is not treated as an error.  An empty track
list, however, is not routed to the fallback: the bare re-raise fails with
a TypeError and the generic error string is returned instead. -/
theorem C2_captions_disabled_fallback (env : Env) (url vid text : String)
    (hid : extract_video_id url = some vid) (hvid : vid ≠ "")
    (hdis : env.list_transcripts vid = Except.error PyExc.transcriptsDisabled)
    (htx : transcribe_audio env (download_audio env url) = Except.ok text) :
    fetch_transcript env url = FetchOutcome.ret (some text) none
    ∧ ∀ env' : Env, env'.list_transcripts vid = Except.ok [] →
        fetch_transcript env' url
          = FetchOutcome.ret none (some ("Error: " ++ bareRaiseTypeError)) := by
  constructor
  · simp [fetch_transcript, hid, hvid, fetch_try_body, hdis, htx]
  · intro env' h
    simp [fetch_transcript, hid, hvid, fetch_try_body, h, best_transcript]

/-- C2 witness: a disabled-captions listing ends in the transcribed text,
and an empty listing for the same video ends in the generic error. -/
theorem C2_captions_disabled_fallback_witness :
    fetch_transcript
        { envT with list_transcripts := fun _ => Except.error PyExc.transcriptsDisabled }
        "https://youtu.be/xyz789?t=5"
      = FetchOutcome.ret (some "spoken text") none
    ∧ fetch_transcript { envT with list_transcripts := fun _ => Except.ok [] }
        "https://youtu.be/xyz789?t=5"
      = FetchOutcome.ret none (some ("Error: " ++ bareRaiseTypeError)) := by
  have h := C2_captions_disabled_fallback
    { envT with list_transcripts := fun _ => Except.error PyExc.transcriptsDisabled }
    "https://youtu.be/xyz789?t=5" "xyz789" "spoken text" rfl (by decide) rfl rfl
  exact ⟨h.1, h.2 { envT with list_transcripts := fun _ => Except.ok [] } rfl⟩

/-- C3: a caption listing/fetch failure other than TranscriptsDisabled makes
`fetch_transcript` return no transcript and the generic string
`"Error: " ++ str(e)`; `main` prints it and returns without reaching the
summarization step. -/
theorem C3_other_failure_generic_error (env : Env) (url vid msg lang : String)
    (hid : extract_video_id url = some vid) (hvid : vid ≠ "")
    (hfail : env.list_transcripts vid = Except.error (PyExc.other msg)
      ∨ ∃ transcripts best, env.list_transcripts vid = Except.ok transcripts
          ∧ best_transcript transcripts = some best
          ∧ best.fetchResult = Except.error (PyExc.other msg)) :
    fetch_transcript env url = FetchOutcome.ret none (some ("Error: " ++ msg))
    ∧ main env url lang
      = MainOutcome.finished ["Fetching transcript...", "Error: " ++ ("Error: " ++ msg)] := by
  have hft : fetch_transcript env url = FetchOutcome.ret none (some ("Error: " ++ msg)) := by
    rcases hfail with h | ⟨ts, best, h1, h2, h3⟩
    · simp [fetch_transcript, hid, hvid, fetch_try_body, h]
    · simp [fetch_transcript, hid, hvid, fetch_try_body, h1, h2, h3]
  have htr : truthy (some ("Error: " ++ msg)) = true :=
    truthy_some (string_append_ne_empty _ _ (by decide))
  exact ⟨hft, by simp [main, hft, htr, optStr]⟩

/-- C3 witness: a listing failure with message "boom". -/
theorem C3_other_failure_generic_error_witness :
    fetch_transcript
        { envT with list_transcripts := fun _ => Except.error (PyExc.other "boom") }
        "https://youtu.be/xyz789"
      = FetchOutcome.ret none (some "Error: boom")
    ∧ main { envT with list_transcripts := fun _ => Except.error (PyExc.other "boom") }
        "https://youtu.be/xyz789" "English"
      = MainOutcome.finished ["Fetching transcript...", "Error: Error: boom"] :=
  C3_other_failure_generic_error _ _ "xyz789" "boom" "English" rfl (by decide) (Or.inl rfl)

/-- C4: a failure inside the captions-disabled fallback is not converted to
the generic error string but escapes `fetch_transcript` uncaught; in
particular, after a silent download failure the transcriber receives `None`
and raises the `open(None, "rb")` TypeError. -/
theorem C4_fallback_failures_uncaught (env : Env) (url vid msg : String)
    (hid : extract_video_id url = some vid) (hvid : vid ≠ "")
    (hdis : env.list_transcripts vid = Except.error PyExc.transcriptsDisabled)
    (hfail : transcribe_audio env (download_audio env url) = Except.error msg) :
    fetch_transcript env url = FetchOutcome.uncaught msg
    ∧ (∀ t e, fetch_transcript env url ≠ FetchOutcome.ret t e)
    ∧ transcribe_audio env none
      = Except.error "expected str, bytes or os.PathLike object, not NoneType" := by
  have hft : fetch_transcript env url = FetchOutcome.uncaught msg := by
    simp [fetch_transcript, hid, hvid, fetch_try_body, hdis, hfail]
  exact ⟨hft, fun t e h => by rw [hft] at h; exact FetchOutcome.noConfusion h, rfl⟩

/-- C4 witness: yt-dlp throws, the download returns the absence signal, and
the TypeError of `open(None)` escapes the fetch. -/
theorem C4_fallback_failures_uncaught_witness :
    fetch_transcript
        { envT with
            list_transcripts := fun _ => Except.error PyExc.transcriptsDisabled
            ydl_download_exc := fun _ => some "network down" }
        "https://youtu.be/xyz789"
      = FetchOutcome.uncaught "expected str, bytes or os.PathLike object, not NoneType" :=
  (C4_fallback_failures_uncaught
    { envT with
        list_transcripts := fun _ => Except.error PyExc.transcriptsDisabled
        ydl_download_exc := fun _ => some "network down" }
    "https://youtu.be/xyz789" "xyz789"
    "expected str, bytes or os.PathLike object, not NoneType"
    rfl (by decide) rfl rfl).1

/-- C8: the audio fetcher succeeds exactly when the backend does not throw
and the file exists, returning the fixed `<tempdir>/youtube_audio.mp3`
path; it returns the absence signal exactly when the backend throws or the
file is missing; and a returned path never depends on the video URL. -/
theorem C8_download_audio_contract (env : Env) (u : String) :
    (env.ydl_download_exc u = none →
      env.path_exists (env.tempDir ++ "/youtube_audio.mp3") = true →
      download_audio env u = some (env.tempDir ++ "/youtube_audio.mp3"))
    ∧ (download_audio env u = none ↔
        (env.ydl_download_exc u).isSome = true
        ∨ env.path_exists (env.tempDir ++ "/youtube_audio.mp3") = false)
    ∧ (∀ p, download_audio env u = some p → p = env.tempDir ++ "/youtube_audio.mp3") := by
  cases h : env.ydl_download_exc u with
  | some m => simp [download_audio, h]
  | none =>
    cases hp : env.path_exists (env.tempDir ++ "/youtube_audio.mp3") with
    | true => simp [download_audio, h, hp]
    | false => simp [download_audio, h, hp]

/-- C8 witness: with no backend exception and the file present the fixed
path is returned, for two different video URLs. -/
theorem C8_download_audio_contract_witness :
    download_audio envT "https://youtu.be/one" = some "/tmp/youtube_audio.mp3"
    ∧ download_audio envT "https://youtu.be/two" = some "/tmp/youtube_audio.mp3" :=
  ⟨(C8_download_audio_contract envT "https://youtu.be/one").1 rfl rfl,
   (C8_download_audio_contract envT "https://youtu.be/two").1 rfl rfl⟩

/-- C9: on summarization success `main` prints the literal header and then
the model text verbatim; on summarization failure the exception is caught
at top level and printed, and no header line is printed. -/
theorem C9_summary_output (env : Env) (url lang text : String)
    (hfetch : fetch_transcript env url = FetchOutcome.ret (some text) none) :
    (∀ s, env.generate_content (gemini_prompt text lang) = Except.ok s →
      main env url lang = MainOutcome.finished
        ["Fetching transcript...", "Transcript successfully fetched.",
         "Summarizing with Google Gemini...", "\n=== Video Summary ===", s])
    ∧ (∀ msg, env.generate_content (gemini_prompt text lang) = Except.error msg →
      main env url lang = MainOutcome.finished
        ["Fetching transcript...", "Transcript successfully fetched.",
         "Summarizing with Google Gemini...", "Error during summarization: " ++ msg]
      ∧ ("\n=== Video Summary ===" : String) ∉
          ["Fetching transcript...", "Transcript successfully fetched.",
           "Summarizing with Google Gemini...", "Error during summarization: " ++ msg]) := by
  constructor
  · intro s hs
    simp [main, hfetch, truthy, summarizeyt_with_gemini, optStr, hs]
  · intro msg hm
    refine ⟨by simp [main, hfetch, truthy, summarizeyt_with_gemini, optStr, hm], ?_⟩
    intro hmem
    simp only [List.mem_cons, List.not_mem_nil, or_false] at hmem
    rcases hmem with h | h | h | h
    · exact absurd h (by decide)
    · exact absurd h (by decide)
    · exact absurd h (by decide)
    · have hlen := congrArg String.length h
      rw [String.length_append] at hlen
      have h1 : ("\n=== Video Summary ===" : String).length = 22 := rfl
      have h2 : ("Error during summarization: " : String).length = 28 := rfl
      rw [h1, h2] at hlen
      omega

/-- C9 witness: the success output with header and verbatim summary, and
the failure output with the error line and no header. -/
theorem C9_summary_output_witness :
    main envT "https://www.youtube.com/watch?v=abc123" "English"
      = MainOutcome.finished
        ["Fetching transcript...", "Transcript successfully fetched.",
         "Summarizing with Google Gemini...", "\n=== Video Summary ===", "a summary"]
    ∧ main { envT with generate_content := fun _ => Except.error "quota exceeded" }
        "https://www.youtube.com/watch?v=abc123" "English"
      = MainOutcome.finished
        ["Fetching transcript...", "Transcript successfully fetched.",
         "Summarizing with Google Gemini...", "Error during summarization: quota exceeded"] :=
  ⟨(C9_summary_output envT "https://www.youtube.com/watch?v=abc123" "English"
      "Hello world" (by decide)).1 "a summary" rfl,
   ((C9_summary_output
      { envT with generate_content := fun _ => Except.error "quota exceeded" }
      "https://www.youtube.com/watch?v=abc123" "English" "Hello world" (by decide)).2
      "quota exceeded" rfl).1⟩

/-- C10: the acquirer joins the text fields of the fetched caption entries
with single-space separators; ["Hello", "world"] joins to "Hello world". -/
theorem C10_entries_joined (env : Env) (url vid : String) (transcripts : List Track)
    (best : Track) (entries : List String)
    (hid : extract_video_id url = some vid) (hvid : vid ≠ "")
    (hlist : env.list_transcripts vid = Except.ok transcripts)
    (hbest : best_transcript transcripts = some best)
    (hfetch : best.fetchResult = Except.ok entries) :
    fetch_transcript env url
      = FetchOutcome.ret (some (String.intercalate " " entries)) none
    ∧ String.intercalate " " ["Hello", "world"] = "Hello world" := by
  refine ⟨?_, rfl⟩
  simp [fetch_transcript, hid, hvid, fetch_try_body, hlist, hbest, hfetch]

/-- C5 counterexample: the pure-ASCII string "http://[abc" matches neither
accepted URL shape, yet the parser run raises the urlsplit
"Invalid IPv6 URL" ValueError instead of returning the absence signal, and
the exception escapes `fetch_transcript` uncaught — the program crashes
rather than reporting the invalid-URL error. -/
theorem C5_bracket_crash_counterexample :
    extract_video_id_run (fun _ => none) "http://[abc"
      = ParseOutcome.raises "Invalid IPv6 URL"
    ∧ extract_video_id_run (fun _ => none) "http://[abc" ≠ ParseOutcome.ok none
    ∧ fetch_transcript_run (fun _ => none) envT "http://[abc"
      = FetchOutcome.uncaught "Invalid IPv6 URL" := by
  refine ⟨rfl, ?_, rfl⟩
  intro h
  rw [show extract_video_id_run (fun _ => none) "http://[abc"
      = ParseOutcome.raises "Invalid IPv6 URL" from rfl] at h
  exact ParseOutcome.noConfusion h

/-- C5 (amended): on every URL whose parsed netloc contains no square
bracket, `urlsplit` cannot raise and the parser run returns the plain
parse; such a string accepted by neither URL shape — the parsed hostname
is the canonical domain only without a recorded `v` value, or is not the
canonical domain while the short-link pattern does not match — makes the
parser return the absence signal; and on the absence signal the fetch run
reports the invalid-URL error with a result independent of the
environment, so no external service is consulted.  (A URL with a bracketed
netloc can instead crash the parser before any of this: see the
counterexample.) -/
theorem C5_invalid_url_no_calls :
    (∀ (bracketCheck : List Char → Option String) (url : String),
      (urlsplit url.data).netloc.contains '[' = false →
      (urlsplit url.data).netloc.contains ']' = false →
      extract_video_id_run bracketCheck url = ParseOutcome.ok (extract_video_id url))
    ∧ (∀ url : String,
      (∀ host, hostnameOf (urlsplit url.data).netloc = some host →
        (host = "www.youtube.com".data ∨ host = "youtube.com".data) →
        parse_qs_first "v".data (urlsplit url.data).query = none) →
      youtuBeMatch url.data = none →
      extract_video_id url = none)
    ∧ (∀ (bracketCheck : List Char → Option String) (url : String),
      (urlsplit url.data).netloc.contains '[' = false →
      (urlsplit url.data).netloc.contains ']' = false →
      extract_video_id url = none →
      ∀ env env' : Env,
        fetch_transcript_run bracketCheck env url
          = FetchOutcome.ret none (some "Invalid YouTube URL.")
        ∧ fetch_transcript_run bracketCheck env url
          = fetch_transcript_run bracketCheck env' url) := by
  have hnoraise : ∀ (bracketCheck : List Char → Option String) (url : String),
      (urlsplit url.data).netloc.contains '[' = false →
      (urlsplit url.data).netloc.contains ']' = false →
      extract_video_id_run bracketCheck url = ParseOutcome.ok (extract_video_id url) := by
    intro bracketCheck url h1 h2
    unfold extract_video_id_run
    simp at h1 h2
    simp [h1, h2]
  refine ⟨hnoraise, ?_, ?_⟩
  · intro url hq hre
    unfold extract_video_id
    cases hh : hostnameOf (urlsplit url.data).netloc with
    | none => simp [hh, hre]
    | some host =>
      by_cases hmem : host = "www.youtube.com".data ∨ host = "youtube.com".data
      · simp [hh, hmem, hq host hh hmem]
      · simp [hh, hmem, hre]
  · intro bracketCheck url h1 h2 hnone env env'
    have hok := hnoraise bracketCheck url h1 h2
    unfold fetch_transcript_run
    rw [hok]
    constructor <;> simp [fetch_transcript, hnone]

/-- C5 witness: "not-a-url" (bracket-free netloc) is rejected identically
in two environments, without the parser raising. -/
theorem C5_invalid_url_no_calls_witness :
    extract_video_id "not-a-url" = none
    ∧ fetch_transcript_run (fun _ => none) envT "not-a-url"
        = FetchOutcome.ret none (some "Invalid YouTube URL.")
    ∧ fetch_transcript_run (fun _ => none) envT "not-a-url"
        = fetch_transcript_run (fun _ => none)
            { envT with list_transcripts := fun _ => Except.ok [] } "not-a-url" := by
  have hn : extract_video_id "not-a-url" = none :=
    C5_invalid_url_no_calls.2.1 "not-a-url"
      (fun host hh => by
        have hnone : hostnameOf (urlsplit "not-a-url".data).netloc = none := rfl
        rw [hnone] at hh
        exact absurd hh (by simp))
      rfl
  have h2 := C5_invalid_url_no_calls.2.2 (fun _ => none) "not-a-url" rfl rfl hn envT
    { envT with list_transcripts := fun _ => Except.ok [] }
  exact ⟨hn, h2.1, h2.2⟩

/-! character classes used to state the URL-shape claims (C6, C7): they
keep a component inside the region where the parsing functions return it
verbatim. -/

/-- characters surviving the input cleaning of `urlsplit`. -/
def cleanOkC (c : Char) : Bool := !(c == '\t' || c == '\r' || c == '\n')

/-- characters allowed in the path of a watch URL: no query or fragment
delimiter, nothing removed by cleaning. -/
def pathOkC (c : Char) : Bool :=
  !(c == '?' || c == '#' || c == '\t' || c == '\r' || c == '\n')

/-- characters of a `v` value returned verbatim: no pair or fragment
delimiter, nothing decoded by `unquote_plus`, nothing removed by cleaning. -/
def vidOkC (c : Char) : Bool :=
  !(c == '&' || c == '#' || c == '+' || c == '%' || c == '\t' || c == '\r' || c == '\n')

/-- characters allowed in a hostname: no netloc or hostname delimiter,
nothing removed by cleaning. -/
def hostOkC (c : Char) : Bool :=
  !(c == '/' || c == '?' || c == '#' || c == ':' || c == '@' || c == '['
    || c == '\t' || c == '\r' || c == '\n')

theorem vidOk_facts {c : Char} (h : vidOkC c = true) :
    (c == '&') = false ∧ (c != '#') = true ∧ (c == '+') = false
    ∧ (c == '%') = false ∧ cleanOkC c = true := by
  revert h
  simp [vidOkC, cleanOkC]
  tauto

theorem pathOk_facts {c : Char} (h : pathOkC c = true) :
    (c != '?') = true ∧ (c != '#') = true ∧ cleanOkC c = true := by
  revert h
  simp [pathOkC, cleanOkC]
  tauto

theorem hostOk_facts {c : Char} (h : hostOkC c = true) :
    (!(c == '/' || c == '?' || c == '#')) = true ∧ (c != ':') = true
    ∧ (c != '@') = true ∧ (c == '[') = false ∧ cleanOkC c = true := by
  revert h
  simp [hostOkC, cleanOkC]
  tauto

/-- a `v=`-pair at the head of the query with a clean non-empty value is
decoded to that value. -/
theorem qsPair_v (V : List Char) (hVne : V ≠ [])
    (hV : ∀ c ∈ V, vidOkC c = true) :
    qsPair ('v' :: '=' :: V) = some (['v'], V) := by
  unfold qsPair
  have hd : dropUntilChar '=' ('v' :: '=' :: V) = '=' :: V := rfl
  have ht : takeUntilChar '=' ('v' :: '=' :: V) = ['v'] := rfl
  have hu : unquote_plus V = V :=
    unquote_plus_clean (fun a ha => (vidOk_facts (hV a ha)).2.2.2.1)
      (fun a ha => (vidOk_facts (hV a ha)).2.2.1)
  rw [hd, ht]
  simp [hVne, hu]
  rfl

/-- the first value recorded for `v` in a query of the form `v=VALUE` is
that value. -/
theorem parse_v_single (V : List Char) (hVne : V ≠ [])
    (hV : ∀ c ∈ V, vidOkC c = true) :
    parse_qs_first "v".data ('v' :: '=' :: V) = some V := by
  have hamp : ∀ a ∈ 'v' :: '=' :: V, (a == '&') = false := by
    intro a ha
    simp only [List.mem_cons] at ha
    rcases ha with h | h | h
    · rw [h]; rfl
    · rw [h]; rfl
    · exact (vidOk_facts (hV a h)).1
  have hsplit := splitOnChar_all_ne hamp
  unfold parse_qs_first parse_qsl
  rw [hsplit]
  simp [List.filterMap_cons, qsPair_v V hVne hV, List.find?_cons]

/-- the first value recorded for `v` in a query of the form `v=VALUE&...`
is that value, whatever follows the `&`. -/
theorem parse_v_more (V R : List Char) (hVne : V ≠ [])
    (hV : ∀ c ∈ V, vidOkC c = true) :
    parse_qs_first "v".data ('v' :: '=' :: (V ++ '&' :: R)) = some V := by
  have hamp : ∀ a ∈ 'v' :: '=' :: V, (a == '&') = false := by
    intro a ha
    simp only [List.mem_cons] at ha
    rcases ha with h | h | h
    · rw [h]; rfl
    · rw [h]; rfl
    · exact (vidOk_facts (hV a h)).1
  have hshape : 'v' :: '=' :: (V ++ '&' :: R) = ('v' :: '=' :: V) ++ '&' :: R := by simp
  have hsplit := @splitOnChar_append '&' ('v' :: '=' :: V) R hamp
  unfold parse_qs_first parse_qsl
  rw [hshape, hsplit]
  simp [List.filterMap_cons, qsPair_v V hVne hV, List.find?_cons]

/-- computation of `urlsplit` on a watch URL `https://HOST/PATH?v=VALUE…`:
the netloc is exactly the host and the query is everything after the `?`
up to a possible fragment. -/
theorem urlsplit_watch (H P V T : List Char)
    (hH : ∀ c ∈ H, hostOkC c = true)
    (hP : ∀ c ∈ P, pathOkC c = true)
    (hV : ∀ c ∈ V, vidOkC c = true)
    (hT : ∀ c ∈ T, cleanOkC c = true) :
    (urlsplit ("https://".data ++ (H ++ '/' :: (P ++ '?' :: 'v' :: '=' :: (V ++ T))))).netloc
      = H
    ∧ (urlsplit ("https://".data ++ (H ++ '/' :: (P ++ '?' :: 'v' :: '=' :: (V ++ T))))).query
      = 'v' :: '=' :: (V ++ takeUntilChar '#' T) := by
  set X : List Char := '/' :: (P ++ '?' :: 'v' :: '=' :: (V ++ T)) with hX
  set L : List Char := "https://".data ++ (H ++ X) with hL
  have hallclean : ∀ a ∈ L, cleanOkC a = true := by
    have hlit : ∀ x ∈ ("https://".data : List Char), cleanOkC x = true := by decide
    intro a ha
    rw [hL, hX] at ha
    rcases List.mem_append.mp ha with h | h
    · exact hlit a h
    rcases List.mem_append.mp h with h | h
    · exact (hostOk_facts (hH a h)).2.2.2.2
    rcases List.mem_cons.mp h with h | h
    · subst h; rfl
    rcases List.mem_append.mp h with h | h
    · exact (pathOk_facts (hP a h)).2.2
    rcases List.mem_cons.mp h with h | h
    · subst h; rfl
    rcases List.mem_cons.mp h with h | h
    · subst h; rfl
    rcases List.mem_cons.mp h with h | h
    · subst h; rfl
    rcases List.mem_append.mp h with h | h
    · exact (vidOk_facts (hV a h)).2.2.2.2
    · exact hT a h
  have hLclean : cleanUrl L = L := by
    have h1 : cleanUrl L = L.filter (fun c => !(c == '\t' || c == '\r' || c == '\n')) := rfl
    rw [h1]
    exact List.filter_eq_self.mpr hallclean
  have hscheme : schemeSplit L = ("https".data, "//".data ++ (H ++ X)) := rfl
  have htw : (H ++ X).takeWhile (fun c => !(c == '/' || c == '?' || c == '#')) = H := by
    rw [takeWhile_append_all X (fun a ha => (hostOk_facts (hH a ha)).1)]
    have h0 : X.takeWhile (fun c => !(c == '/' || c == '?' || c == '#')) = [] := by
      rw [hX]; rfl
    rw [h0]
    exact List.append_nil H
  have hnet : netlocSplit ("//".data ++ (H ++ X)) = (H, X) := by
    have h1 : netlocSplit ("//".data ++ (H ++ X))
        = ((H ++ X).takeWhile (fun c => !(c == '/' || c == '?' || c == '#')),
           (H ++ X).drop
             ((H ++ X).takeWhile (fun c => !(c == '/' || c == '?' || c == '#'))).length) := rfl
    rw [h1, htw, List.drop_left]
  have hfrag5 : takeUntilChar '#' X
      = '/' :: (P ++ ('?' :: 'v' :: '=' :: (V ++ takeUntilChar '#' T))) := by
    have hok : ∀ a ∈ ('/' :: P) ++ ('?' :: 'v' :: '=' :: V), (a != '#') = true := by
      intro a ha
      rcases List.mem_append.mp ha with h | h
      · rcases List.mem_cons.mp h with h | h
        · subst h; rfl
        · exact (pathOk_facts (hP a h)).2.1
      · rcases List.mem_cons.mp h with h | h
        · subst h; rfl
        rcases List.mem_cons.mp h with h | h
        · subst h; rfl
        rcases List.mem_cons.mp h with h | h
        · subst h; rfl
        · exact (vidOk_facts (hV a h)).2.1
    unfold takeUntilChar
    rw [show X = (('/' :: P) ++ ('?' :: 'v' :: '=' :: V)) ++ T by rw [hX]; simp]
    rw [takeWhile_append_all T hok]
    simp [takeUntilChar, List.append_assoc]
  have hq5 : dropUntilChar '?' (takeUntilChar '#' X)
      = '?' :: ('v' :: '=' :: (V ++ takeUntilChar '#' T)) := by
    have hok : ∀ a ∈ '/' :: P, (a != '?') = true := by
      intro a ha
      simp only [List.mem_cons] at ha
      rcases ha with h | h
      · subst h; rfl
      · exact (pathOk_facts (hP a h)).1
    rw [hfrag5]
    unfold dropUntilChar
    rw [show '/' :: (P ++ ('?' :: 'v' :: '=' :: (V ++ takeUntilChar '#' T)))
        = ('/' :: P) ++ ('?' :: 'v' :: '=' :: (V ++ takeUntilChar '#' T)) by simp]
    rw [dropWhile_append_all _ hok]
    rfl
  have hfull : urlsplit L
      = ⟨"https".data, H, takeUntilChar '?' (takeUntilChar '#' X),
         'v' :: '=' :: (V ++ takeUntilChar '#' T),
         match dropUntilChar '#' X with | [] => [] | _ :: t => t⟩ := by
    unfold urlsplit
    rw [hLclean]
    dsimp only
    rw [hscheme]
    dsimp only
    rw [hnet]
    dsimp only
    rw [hq5]
  rw [hfull]
  exact ⟨rfl, rfl⟩

/-- C6: a URL whose host is the canonical video-platform domain and whose
query carries `v` with first value `vid` (a non-empty value of verbatim
characters, optionally followed by further pairs or a fragment) makes
`extract_video_id` return exactly `vid`. -/
theorem C6_v_parameter (host path vid tail : String)
    (hhost : host = "www.youtube.com" ∨ host = "youtube.com")
    (hpath : ∀ c ∈ path.data, pathOkC c = true)
    (hvid : ∀ c ∈ vid.data, vidOkC c = true)
    (hvne : vid ≠ "")
    (htail : tail = "" ∨ tail.data.head? = some '&' ∨ tail.data.head? = some '#')
    (htailclean : ∀ c ∈ tail.data, cleanOkC c = true) :
    extract_video_id ("https://" ++ host ++ "/" ++ path ++ "?v=" ++ vid ++ tail)
      = some vid := by
  have hvne' : vid.data ≠ [] := by
    intro h
    apply hvne
    cases vid
    simp at h
    rw [h]
  have hurl : ("https://" ++ host ++ "/" ++ path ++ "?v=" ++ vid ++ tail).data
      = "https://".data ++ (host.data ++ '/' :: (path.data
          ++ '?' :: 'v' :: '=' :: (vid.data ++ tail.data))) := by
    simp only [String.data_append, List.append_assoc]
    rfl
  have hhostok : ∀ c ∈ host.data, hostOkC c = true := by
    rcases hhost with rfl | rfl <;> decide
  obtain ⟨hn, hq⟩ := urlsplit_watch host.data path.data vid.data tail.data
    hhostok hpath hvid htailclean
  have hhn : hostnameOf ((urlsplit ("https://".data ++ (host.data ++ '/' :: (path.data
      ++ '?' :: 'v' :: '=' :: (vid.data ++ tail.data))))).netloc) = some host.data := by
    rw [hn]
    rcases hhost with rfl | rfl <;> rfl
  have hquery : parse_qs_first "v".data
      ((urlsplit ("https://".data ++ (host.data ++ '/' :: (path.data
        ++ '?' :: 'v' :: '=' :: (vid.data ++ tail.data))))).query) = some vid.data := by
    rw [hq]
    rcases htail with h | h | h
    · rw [h]
      rw [show takeUntilChar '#' ("" : String).data = [] from rfl, List.append_nil]
      exact parse_v_single _ hvne' hvid
    · obtain ⟨R, hR⟩ : ∃ R, tail.data = '&' :: R := by
        cases htd : tail.data with
        | nil => rw [htd] at h; simp at h
        | cons c R =>
          rw [htd] at h
          simp at h
          exact ⟨R, by rw [h]⟩
      rw [hR, show takeUntilChar '#' ('&' :: R) = '&' :: takeUntilChar '#' R from rfl]
      exact parse_v_more vid.data _ hvne' hvid
    · obtain ⟨R, hR⟩ : ∃ R, tail.data = '#' :: R := by
        cases htd : tail.data with
        | nil => rw [htd] at h; simp at h
        | cons c R =>
          rw [htd] at h
          simp at h
          exact ⟨R, by rw [h]⟩
      rw [hR, show takeUntilChar '#' ('#' :: R) = [] from rfl, List.append_nil]
      exact parse_v_single _ hvne' hvid
  simp only [extract_video_id]
  rw [hurl, hhn]
  have hmem : host.data = "www.youtube.com".data ∨ host.data = "youtube.com".data := by
    rcases hhost with rfl | rfl
    · exact Or.inl rfl
    · exact Or.inr rfl
  simp only [hmem, if_pos, hquery]
  cases vid
  rfl

/-- C6 witness: `https://www.youtube.com/watch?v=abc123&t=7s` parses to
`abc123`. -/
theorem C6_v_parameter_witness :
    extract_video_id ("https://" ++ "www.youtube.com" ++ "/" ++ "watch"
        ++ "?v=" ++ "abc123" ++ "&t=7s")
      = some "abc123" :=
  C6_v_parameter "www.youtube.com" "watch" "abc123" "&t=7s"
    (Or.inl rfl) (by decide) (by decide) (by decide) (Or.inr (Or.inl rfl)) (by decide)

/-- characters of a short-link identifier, the regex class `[^?&]`. -/
def sidOkC (c : Char) : Bool := !(c == '?' || c == '&')

/-- a schemeless URL that starts with a clean, colon-free chunk containing
a `/` (such as `youtu.be/` or `www.youtu.be/`) parses with an empty netloc:
no valid scheme can be split off and there is no leading `//`. -/
theorem urlsplit_netloc_schemeless (c0 : Char) (C' F : List Char)
    (h0 : (('/' : Char) == c0) = false)
    (h0' : ¬(c0.toNat ≤ 32))
    (hCclean : ∀ a ∈ c0 :: C', cleanOkC a = true)
    (hCcolon : ∀ a ∈ c0 :: C', (a != ':') = true)
    (hslash : '/' ∈ c0 :: C') :
    (urlsplit ((c0 :: C') ++ F)).netloc = [] := by
  set C : List Char := c0 :: C' with hC
  set F' : List Char := F.filter (fun c => !(c == '\t' || c == '\r' || c == '\n')) with hF'
  have hdrop : (C ++ F).dropWhile (fun c => c.toNat ≤ 32) = C ++ F := by
    rw [hC, List.cons_append, List.dropWhile_cons]
    simp [h0']
  have hclean : cleanUrl (C ++ F) = C ++ F' := by
    unfold cleanUrl
    rw [hdrop, List.filter_append]
    rw [show List.filter (fun c => !(c == '\t' || c == '\r' || c == '\n')) C = C
      from List.filter_eq_self.mpr hCclean]
  have hpre : takeUntilChar ':' (C ++ F') = C ++ takeUntilChar ':' F' := by
    unfold takeUntilChar
    exact takeWhile_append_all _ hCcolon
  have hallfalse : ¬((takeUntilChar ':' (C ++ F')).all isSchemeChar = true) := by
    intro hall
    have hmem : '/' ∈ takeUntilChar ':' (C ++ F') := by
      rw [hpre]
      exact List.mem_append_left _ hslash
    have := List.all_eq_true.mp hall '/' hmem
    exact absurd this (by decide)
  have hns : schemeSplit (C ++ F') = ([], C ++ F') := by
    unfold schemeSplit
    dsimp only
    rcases hd : dropUntilChar ':' (C ++ F') with _ | ⟨x, rest⟩
    · rfl
    · dsimp only
      rw [if_neg (fun hcond => hallfalse hcond.2.2)]
  have hsw : startsWithL ['/', '/'] (C ++ F') = false := by
    rw [hC, List.cons_append]
    simp [startsWithL, h0]
  have hnet : netlocSplit (C ++ F') = ([], C ++ F') := by
    unfold netlocSplit
    rw [hsw]
    simp
  unfold urlsplit
  rw [hclean]
  dsimp only
  rw [hns]
  dsimp only
  rw [hnet]

set_option maxHeartbeats 1600000 in
/-- C7: a short-link URL — optional scheme, optional `www.`, then
`youtu.be/` followed by a non-empty identifier of characters other than
`?` and `&`, optionally followed by a `?…` or `&…` suffix — makes
`extract_video_id` return exactly the identifier. -/
theorem C7_short_link (s w sid tail : String)
    (hs : s = "" ∨ s = "http://" ∨ s = "https://")
    (hw : w = "" ∨ w = "www.")
    (hsid : ∀ c ∈ sid.data, sidOkC c = true)
    (hsne : sid ≠ "")
    (htail : tail = "" ∨ tail.data.head? = some '?' ∨ tail.data.head? = some '&') :
    extract_video_id (s ++ w ++ "youtu.be/" ++ sid ++ tail) = some sid := by
  have hsne' : sid.data ≠ [] := by
    intro h
    apply hsne
    cases sid
    simp at h
    rw [h]
  have hcap : (sid.data ++ tail.data).takeWhile (fun c => !(c == '?' || c == '&'))
      = sid.data := by
    rw [show (sid.data ++ tail.data).takeWhile (fun c => !(c == '?' || c == '&'))
        = sid.data ++ tail.data.takeWhile (fun c => !(c == '?' || c == '&'))
      from takeWhile_append_all tail.data hsid]
    have htl : tail.data.takeWhile (fun c => !(c == '?' || c == '&')) = [] := by
      rcases htail with h | h | h
      · rw [h]
        rfl
      · obtain ⟨R, hR⟩ : ∃ R, tail.data = '?' :: R := by
          cases htd : tail.data with
          | nil => rw [htd] at h; simp at h
          | cons c R => rw [htd] at h; simp at h; exact ⟨R, by rw [h]⟩
        rw [hR]
        rfl
      · obtain ⟨R, hR⟩ : ∃ R, tail.data = '&' :: R := by
          cases htd : tail.data with
          | nil => rw [htd] at h; simp at h
          | cons c R => rw [htd] at h; simp at h; exact ⟨R, by rw [h]⟩
        rw [hR]
        rfl
    rw [htl, List.append_nil]
  rcases hs with rfl | rfl | rfl <;> rcases hw with rfl | rfl
  · -- no scheme, no www
    have hurl : (("" : String) ++ "" ++ "youtu.be/" ++ sid ++ tail).data
        = "youtu.be/".data ++ (sid.data ++ tail.data) := by
      simp only [String.data_append, List.append_assoc]
      try rfl
    have hnone : hostnameOf
        ((urlsplit ("youtu.be/".data ++ (sid.data ++ tail.data))).netloc) = none := by
      rw [show (urlsplit ("youtu.be/".data ++ (sid.data ++ tail.data))).netloc = []
        from urlsplit_netloc_schemeless 'y' "outu.be/".data (sid.data ++ tail.data)
          (by decide) (by decide) (by decide) (by decide) (by decide)]
      rfl
    have hre : youtuBeMatch ("youtu.be/".data ++ (sid.data ++ tail.data))
        = some sid.data := by
      have h1 : youtuBeMatch ("youtu.be/".data ++ (sid.data ++ tail.data))
          = (if (sid.data ++ tail.data).takeWhile (fun c => !(c == '?' || c == '&')) = []
            then none
            else some ((sid.data ++ tail.data).takeWhile (fun c => !(c == '?' || c == '&')))) :=
        rfl
      rw [h1, hcap]
      simp [hsne']
    simp only [extract_video_id]
    rw [hurl, hnone, hre]
    try cases sid
    try rfl
  · -- no scheme, www
    have hurl : (("" : String) ++ "www." ++ "youtu.be/" ++ sid ++ tail).data
        = "www.".data ++ ("youtu.be/".data ++ (sid.data ++ tail.data)) := by
      simp only [String.data_append, List.append_assoc]
      try rfl
    have hnone : hostnameOf
        ((urlsplit ("www.".data ++ ("youtu.be/".data ++ (sid.data ++ tail.data)))).netloc)
        = none := by
      rw [show (urlsplit ("www.".data ++ ("youtu.be/".data ++ (sid.data ++ tail.data)))).netloc
          = [] from urlsplit_netloc_schemeless 'w' "ww.youtu.be/".data (sid.data ++ tail.data)
          (by decide) (by decide) (by decide) (by decide) (by decide)]
      rfl
    have hre : youtuBeMatch ("www.".data ++ ("youtu.be/".data ++ (sid.data ++ tail.data)))
        = some sid.data := by
      have h1 : youtuBeMatch ("www.".data ++ ("youtu.be/".data ++ (sid.data ++ tail.data)))
          = (if (sid.data ++ tail.data).takeWhile (fun c => !(c == '?' || c == '&')) = []
            then none
            else some ((sid.data ++ tail.data).takeWhile (fun c => !(c == '?' || c == '&')))) :=
        rfl
      rw [h1, hcap]
      simp [hsne']
    simp only [extract_video_id]
    rw [hurl, hnone, hre]
    try cases sid
    try rfl
  · -- http, no www
    have hurl : (("http://" : String) ++ "" ++ "youtu.be/" ++ sid ++ tail).data
        = "http://".data ++ ("youtu.be/".data ++ (sid.data ++ tail.data)) := by
      simp only [String.data_append, List.append_assoc]
      try rfl
    have hsome : hostnameOf
        ((urlsplit ("http://".data ++ ("youtu.be/".data ++ (sid.data ++ tail.data)))).netloc)
        = some "youtu.be".data := rfl
    have hre : youtuBeMatch ("http://".data ++ ("youtu.be/".data ++ (sid.data ++ tail.data)))
        = some sid.data := by
      have h1 : youtuBeMatch ("http://".data ++ ("youtu.be/".data ++ (sid.data ++ tail.data)))
          = (if (sid.data ++ tail.data).takeWhile (fun c => !(c == '?' || c == '&')) = []
            then none
            else some ((sid.data ++ tail.data).takeWhile (fun c => !(c == '?' || c == '&')))) :=
        rfl
      rw [h1, hcap]
      simp [hsne']
    simp only [extract_video_id]
    rw [hurl, hsome]
    dsimp only
    rw [if_neg (by decide), hre]
    try cases sid
    try rfl
  · -- http, www
    have hurl : (("http://" : String) ++ "www." ++ "youtu.be/" ++ sid ++ tail).data
        = "http://".data ++ ("www.".data ++ ("youtu.be/".data ++ (sid.data ++ tail.data))) := by
      simp only [String.data_append, List.append_assoc]
      try rfl
    have hsome : hostnameOf ((urlsplit ("http://".data
          ++ ("www.".data ++ ("youtu.be/".data ++ (sid.data ++ tail.data))))).netloc)
        = some "www.youtu.be".data := rfl
    have hre : youtuBeMatch ("http://".data
          ++ ("www.".data ++ ("youtu.be/".data ++ (sid.data ++ tail.data))))
        = some sid.data := by
      have h1 : youtuBeMatch ("http://".data
            ++ ("www.".data ++ ("youtu.be/".data ++ (sid.data ++ tail.data))))
          = (if (sid.data ++ tail.data).takeWhile (fun c => !(c == '?' || c == '&')) = []
            then none
            else some ((sid.data ++ tail.data).takeWhile (fun c => !(c == '?' || c == '&')))) :=
        rfl
      rw [h1, hcap]
      simp [hsne']
    simp only [extract_video_id]
    rw [hurl, hsome]
    dsimp only
    rw [if_neg (by decide), hre]
    try cases sid
    try rfl
  · -- https, no www
    have hurl : (("https://" : String) ++ "" ++ "youtu.be/" ++ sid ++ tail).data
        = "https://".data ++ ("youtu.be/".data ++ (sid.data ++ tail.data)) := by
      simp only [String.data_append, List.append_assoc]
      try rfl
    have hsome : hostnameOf
        ((urlsplit ("https://".data ++ ("youtu.be/".data ++ (sid.data ++ tail.data)))).netloc)
        = some "youtu.be".data := rfl
    have hre : youtuBeMatch ("https://".data ++ ("youtu.be/".data ++ (sid.data ++ tail.data)))
        = some sid.data := by
      have h1 : youtuBeMatch ("https://".data ++ ("youtu.be/".data ++ (sid.data ++ tail.data)))
          = (if (sid.data ++ tail.data).takeWhile (fun c => !(c == '?' || c == '&')) = []
            then none
            else some ((sid.data ++ tail.data).takeWhile (fun c => !(c == '?' || c == '&')))) :=
        rfl
      rw [h1, hcap]
      simp [hsne']
    simp only [extract_video_id]
    rw [hurl, hsome]
    dsimp only
    rw [if_neg (by decide), hre]
    try cases sid
    try rfl
  · -- https, www
    have hurl : (("https://" : String) ++ "www." ++ "youtu.be/" ++ sid ++ tail).data
        = "https://".data ++ ("www.".data ++ ("youtu.be/".data ++ (sid.data ++ tail.data))) := by
      simp only [String.data_append, List.append_assoc]
      try rfl
    have hsome : hostnameOf ((urlsplit ("https://".data
          ++ ("www.".data ++ ("youtu.be/".data ++ (sid.data ++ tail.data))))).netloc)
        = some "www.youtu.be".data := rfl
    have hre : youtuBeMatch ("https://".data
          ++ ("www.".data ++ ("youtu.be/".data ++ (sid.data ++ tail.data))))
        = some sid.data := by
      have h1 : youtuBeMatch ("https://".data
            ++ ("www.".data ++ ("youtu.be/".data ++ (sid.data ++ tail.data))))
          = (if (sid.data ++ tail.data).takeWhile (fun c => !(c == '?' || c == '&')) = []
            then none
            else some ((sid.data ++ tail.data).takeWhile (fun c => !(c == '?' || c == '&')))) :=
        rfl
      rw [h1, hcap]
      simp [hsne']
    simp only [extract_video_id]
    rw [hurl, hsome]
    dsimp only
    rw [if_neg (by decide), hre]
    try cases sid
    try rfl

/-- C7 witness: `https://youtu.be/xyz789?t=5` parses to `xyz789`. -/
theorem C7_short_link_witness :
    extract_video_id ("https://" ++ "" ++ "youtu.be/" ++ "xyz789" ++ "?t=5")
      = some "xyz789" :=
  C7_short_link "https://" "" "xyz789" "?t=5"
    (Or.inr (Or.inr rfl)) (Or.inl rfl) (by decide) (by decide) (Or.inr (Or.inl rfl))

/-- C10 witness: the manual track's entries ["Hello", "world"] produce the
transcript "Hello world". -/
theorem C10_entries_joined_witness :
    fetch_transcript envT "https://www.youtube.com/watch?v=abc123"
      = FetchOutcome.ret (some "Hello world") none := by
  have := (C10_entries_joined envT "https://www.youtube.com/watch?v=abc123" "abc123"
    [⟨"en", true, Except.ok ["auto", "entry"]⟩, ⟨"fr", false, Except.ok ["Hello", "world"]⟩]
    ⟨"fr", false, Except.ok ["Hello", "world"]⟩ ["Hello", "world"]
    (by decide) (by decide) rfl rfl rfl).1
  simpa using this

end YtSummarize
